import Mathlib

/-!
A shallow embedding of src/packages/node/src/parsers.ts, the stack-parsing core of the
@sentry/node package: raw stack entries are normalized into Sentry stack frames, enriched
with source context, and assembled into an event record.

JavaScript strings are modelled as Lean Strings (operated on through their character
lists), JavaScript numbers occurring as line/column numbers as Nat (absent/null as
Option), array indices as Int where the source can produce negative values, and the
filesystem as an explicit map from filename to optional content. Exceptions are modelled
with Except. Helpers reproduce the exact semantics of the JavaScript operations the
source uses (Array.prototype.slice with negative-index wrapping, String.prototype
lastIndexOf with a fromIndex, truthiness of strings, the `in` operator, Node's
path.basename/path.dirname).
-/

/-- Whether the pattern `pat` occurs in `s` starting at position `i`. -/
def occursAt (pat s : List Char) (i : Nat) : Bool :=
  pat.isPrefixOf (s.drop i)

/-- JavaScript `s.indexOf(pat)`: index of the first occurrence, if any. -/
def firstIndexOfL (s pat : List Char) : Option Nat :=
  (List.range (s.length + 1)).find? (occursAt pat s)

/-- JavaScript `s.lastIndexOf(pat)`: index of the last occurrence, if any. -/
def lastIndexOfL (s pat : List Char) : Option Nat :=
  ((List.range (s.length + 1)).reverse).find? (occursAt pat s)

/-- JavaScript `s.startsWith(p)`. -/
def strStartsWith (s p : String) : Bool :=
  p.toList.isPrefixOf s.toList

/-- JavaScript `s.includes(p)`. -/
def strContains (s p : String) : Bool :=
  (firstIndexOfL s.toList p.toList).isSome

/-- JavaScript `s.indexOf(p)` returning `none` for -1. -/
def strFirstIndexOf (s p : String) : Option Nat :=
  firstIndexOfL s.toList p.toList

/-- JavaScript `s.lastIndexOf(p)` returning `none` for -1. -/
def strLastIndexOf (s p : String) : Option Nat :=
  lastIndexOfL s.toList p.toList

/-- JavaScript `s.substr(n)`: the suffix of `s` from character position `n`. -/
def jsSubstrFrom (s : String) (n : Nat) : String :=
  ⟨s.toList.drop n⟩

/-- JavaScript `s.replace(/\x2f/g, '.')`: every `/` replaced by `.`. -/
def replaceSlashDot (s : String) : String :=
  ⟨s.toList.map (fun c => if c = '/' then '.' else c)⟩

/-- JavaScript `s || d` for an optional string: `d` when the string is absent (null /
undefined) or empty (both are falsy). -/
def jsOrStr (s : Option String) (d : String) : String :=
  match s with
  | none => d
  | some v => if v = "" then d else v

/-- JavaScript `Array.prototype.slice(start, stop)`: negative indices count from the end,
indices are clamped to the array bounds. -/
def jsSlice (xs : List α) (start stop : Int) : List α :=
  let len : Int := xs.length
  let normIdx : Int → Nat := fun i => if i < 0 then (max (len + i) 0).toNat else (min i len).toNat
  (xs.take (normIdx stop)).drop (normIdx start)

/-- JavaScript array indexing `xs[i]`: `undefined` (here `none`) when out of range,
including every negative index. -/
def jsIndex (xs : List α) (i : Int) : Option α :=
  if i < 0 then none else xs[i.toNat]?

/-- Split a character list at every occurrence of `c` (JavaScript `split` keeps empty
pieces, and splitting the empty string yields one empty piece). -/
def splitOnCharAux (c : Char) : List Char → List Char → List (List Char)
  | [], acc => [acc.reverse]
  | x :: xs, acc =>
    if x = c then acc.reverse :: splitOnCharAux c xs [] else splitOnCharAux c xs (x :: acc)

/-- JavaScript `content.split('\n')`. -/
def splitLines (s : String) : List String :=
  (splitOnCharAux '\n' s.toList []).map (fun cs => ⟨cs⟩)

/-- Node strips trailing path separators before taking a basename/dirname; an all-slash
path collapses to the root. -/
def dropTrailingSlashes (cs : List Char) : List Char :=
  let r := (cs.reverse.dropWhile (fun c => c = '/')).reverse
  if r.isEmpty && !cs.isEmpty then ['/'] else r

/-- The last index at which character `c` occurs in `cs`. -/
def lastIndexOfCh (c : Char) (cs : List Char) : Option Nat :=
  (cs.reverse.findIdx? (fun x => x = c)).map (fun j => cs.length - 1 - j)

/-- Node `path.basename(p, ext)`: the last path segment, with the extension stripped when
the segment ends with it and is not the extension itself. -/
def basenameJs (p ext : String) : String :=
  let t := dropTrailingSlashes p.toList
  let b := ((splitOnCharAux '/' t []).getLast?).getD []
  let bs : String := ⟨b⟩
  if bs ≠ ext && ext.toList.isSuffixOf b then ⟨b.take (b.length - ext.length)⟩ else bs

/-- Node `path.dirname(p)` (POSIX). -/
def dirnameJs (p : String) : String :=
  let t := dropTrailingSlashes p.toList
  match lastIndexOfCh '/' t with
  | none => "."
  | some 0 => "/"
  | some i => ⟨t.take i⟩

/-- One engine-level stack entry, as delivered by the stack-trace library's accessors
(`getFunctionName`, `getTypeName`, `getMethodName`, `getFileName`, `getLineNumber`,
`getColumnNumber`, `isNative`). `none` models a null/undefined return. `getTypeName` is
the accessor the source's own comment records as occasionally throwing, so its result is
an `Except`; the other accessors are modelled as non-throwing. -/
structure RawStackFrame where
  functionName : Option String := none
  typeName : Except Unit (Option String) := Except.ok none
  methodName : Option String := none
  fileName : Option String := none
  lineNumber : Option Nat := none
  columnNumber : Option Nat := none
  isNative : Bool := false

/-- A null type name interpolates into a template literal as "null". -/
def templateOfOption : Option String → String
  | none => "null"
  | some s => s

/-- The template-literal fallback of `getFunction`:
``` `${frame.getTypeName()}.${frame.getMethodName() || '<anonymous>'}` ``` evaluated
under the enclosing try/catch, which returns '<anonymous>' when `getTypeName` throws. -/
def getFunctionFallback (frame : RawStackFrame) : String :=
  match frame.typeName with
  | Except.error _ => "<anonymous>"
  | Except.ok t => templateOfOption t ++ "." ++ jsOrStr frame.methodName "<anonymous>"

/-- parsers.ts `getFunction`:
`return frame.getFunctionName() || template` inside try/catch. -/
def getFunction (frame : RawStackFrame) : String :=
  match frame.functionName with
  | some fn => if fn ≠ "" then fn else getFunctionFallback frame
  | none => getFunctionFallback frame

/-- parsers.ts `getModule(filename, base)`. The source defaults `base` to the
module-load-time constant `mainModule`; the embedding passes the base explicitly. -/
def getModule (filename base : String) : String :=
  -- const file = path.basename(filename, '.js');
  let file := basenameJs filename ".js"
  -- filename = path.dirname(filename);
  let dir := dirnameJs filename
  -- let n = filename.lastIndexOf('/node_modules/');
  match strLastIndexOf dir "/node_modules/" with
  | some n =>
    -- /node_modules/ is 14 chars
    replaceSlashDot (jsSubstrFrom dir (n + 14)) ++ ":" ++ file
  | none =>
    -- n = `${filename}/`.lastIndexOf(base, 0): 0 exactly when the string starts with base
    if strStartsWith (dir ++ "/") base then
      let moduleName := replaceSlashDot (jsSubstrFrom dir base.length)
      (if moduleName ≠ "" then moduleName ++ ":" else moduleName) ++ file
    else file

example : getModule "/app/lib/foo.js" "/app/" = "lib:foo" := by decide
example : getModule "/app/node_modules/pkg/sub/bar.js" "/app/" = "pkg.sub:bar" := by decide
example : getModule "/app/index.js" "/app/" = "index" := by decide

/-- parsers.ts `LINES_OF_CONTEXT`. -/
def LINES_OF_CONTEXT : Nat := 7

/-- The Sentry `StackFrame` produced by `parseStack` (from @sentry/types). `filename` is
always a string because the source assigns `frame.getFileName() || ''`. -/
structure StackFrame where
  colno : Option Nat := none
  filename : String := ""
  function : String := ""
  lineno : Option Nat := none
  in_app : Bool := false
  module : Option String := none
  pre_context : Option (List String) := none
  context_line : Option String := none
  post_context : Option (List String) := none
deriving DecidableEq

/-- The per-entry body of the `stack.map` in parsers.ts `parseStack`: builds the parsed
frame and the `isInternal` flag (the latter also decides whether the filename is pushed
onto `filesToRead`). The conjunct `parsedFrame.filename !== undefined` of the `in_app`
assignment is always true, since `filename` is `getFileName() || ''`, a string. -/
def normalizeFrame (mainModule : String) (fr : RawStackFrame) : StackFrame × Bool :=
  let filename := jsOrStr fr.fileName ""
  -- isInternal = frame.isNative() ||
  --   (filename && !filename.startsWith('/') && !filename.startsWith('.') &&
  --     filename.indexOf(':\x5c\x5c') !== 1)
  let isInternal :=
    fr.isNative ||
      (filename != "" && !strStartsWith filename "/" && !strStartsWith filename "." &&
        !(strFirstIndexOf filename ":\\" == some 1))
  ({ colno := fr.columnNumber
     filename := filename
     function := getFunction fr
     lineno := fr.lineNumber
     -- in_app = !isInternal && filename !== undefined && !filename.includes('node_modules/')
     in_app := !isInternal && !strContains filename "node_modules/"
     -- module is assigned under `if (parsedFrame.filename)`
     module := if filename ≠ "" then some (getModule filename mainModule) else none },
   isInternal)

/-- The `filesToRead` list collected by `parseStack`: the filename of every frame with a
truthy filename that is not internal, in stack order. -/
def filesToReadOf (mainModule : String) (stack : List RawStackFrame) : List String :=
  ((stack.map (normalizeFrame mainModule)).filter
    (fun p => p.1.filename != "" && !p.2)).map (fun p => p.1.filename)

/-- Modelled from the spec: `snipLine` from `@sentry/utils/string` is code of this
repository that is not under src/. Per the spec (§4.4 step 3 and the Glossary) it is a
"bounded-length truncation of a source line around a target column, to avoid embedding
pathologically long minified lines": a line within the bound is kept whole, a longer one
is cut to a window of the bound's width starting at the target column, clamped to the end
of the line. -/
def snipLineStr (line : String) (colno : Nat) : String :=
  if line.length ≤ 140 then line
  else ⟨(line.toList.drop (min colno (line.length - 140))).take 140⟩

/-- Modelled from the spec: the snip of a possibly-absent line (`lines[lineno - 1]` can
be out of range). Per §4.4 "context_line may be empty/undefined rather than erroring",
an absent line snips to an absent result. -/
def snipLineOpt (line : Option String) (colno : Nat) : Option String :=
  line.map (fun s => snipLineStr s colno)

/-- The body of the `frames.map` in parsers.ts `addPrePostContext`: when the frame's
filename is truthy and the read source text for it is truthy (present and non-empty),
attach `pre_context`, `context_line` and `post_context`; otherwise return the frame
unchanged. The source's per-frame try/catch never fires in the model because the modelled
`snipLine` is total. -/
def enrichFrame (sourceFiles : String → Option String) (frame : StackFrame) : StackFrame :=
  match (if frame.filename ≠ "" then sourceFiles frame.filename else none) with
  | none => frame
  | some content =>
    if content = "" then frame
    else
      let lines := splitLines content
      -- (frame.lineno || 0)
      let l : Int := (frame.lineno.getD 0 : Nat)
      { frame with
        pre_context := some
          ((jsSlice lines (max 0 (l - ((LINES_OF_CONTEXT : Int) + 1))) (l - 1)).map
            (fun line => snipLineStr line 0))
        context_line := snipLineOpt (jsIndex lines (l - 1)) (frame.colno.getD 0)
        post_context := some
          ((jsSlice lines l (l + (LINES_OF_CONTEXT : Int))).map
            (fun line => snipLineStr line 0)) }

/-- parsers.ts `addPrePostContext(filesToRead, frames)`. `readSourceFiles` is modelled by
restricting the ambient filesystem `fs` (filename to the content of each readable file)
to the requested filenames; a failed read is an absent entry,-and only string contents
are kept. -/
def addPrePostContext (filesToRead : List String) (frames : List StackFrame)
    (fs : String → Option String) : List StackFrame :=
  let sourceFiles : String → Option String := fun f => if f ∈ filesToRead then fs f else none
  frames.map (enrichFrame sourceFiles)

/-- parsers.ts `parseStack(stack)`, with the ambient state made explicit: `mainModule` is
the module-load-time base directory and `fs` the filesystem. The source wraps
`addPrePostContext` in a try/catch that returns the bare frames; in the model the
enrichment is total, so the catch arm is dead. -/
def parseStack (mainModule : String) (fs : String → Option String)
    (stack : List RawStackFrame) : List StackFrame :=
  addPrePostContext (filesToReadOf mainModule stack)
    (stack.map (fun f => (normalizeFrame mainModule f).1)) fs

/-- The test applied to `localStack[0].function || ''` in `prepareFramesForEvent` (an
absent function name is modelled as the empty string, which contains neither marker). -/
def hasCaptureMarker (s : String) : Bool :=
  strContains s "captureMessage" || strContains s "captureException"

/-- parsers.ts `prepareFramesForEvent(stack)` as a pure function on the frame contents;
`none` models a null/undefined argument (`!stack` is also true for it). -/
def prepareFramesForEvent : Option (List StackFrame) → List StackFrame
  | none => []
  | some stack =>
    match stack with
    | [] => []
    | first :: rest =>
      if hasCaptureMarker first.function then rest.reverse
      else (first :: rest).reverse

/-- parsers.ts `prepareFramesForEvent(stack)` with the JavaScript array effects made
explicit: the result is `(returned contents, contents of the caller's array after the
call, whether the returned array is the caller's array object)`. `[]` allocates a fresh
array, `slice(1)` copies into a fresh array, and `reverse()` reverses its receiver in
place and returns that same receiver — so in the branch without a capture marker the
caller's array itself is reversed and returned, while in the marker branch only a fresh
copy is reversed and the caller's array is left untouched. -/
def prepareFramesForEventSt (stack : List StackFrame) :
    List StackFrame × List StackFrame × Bool :=
  match stack with
  | [] => ([], [], false)
  | first :: rest =>
    if hasCaptureMarker first.function then
      (rest.reverse, first :: rest, false)
    else
      ((first :: rest).reverse, (first :: rest).reverse, true)

/-- A JavaScript value, as far as the event-assembly code inspects one. -/
inductive JSValue where
  | num : Int → JSValue
  | str : String → JSValue
  | bool : Bool → JSValue
  | null : JSValue
  | undef : JSValue
deriving DecidableEq

/-- JavaScript truthiness of a `JSValue` (NaN is not modelled). -/
def jsTruthy : JSValue → Bool
  | JSValue.num n => n != 0
  | JSValue.str s => s != ""
  | JSValue.bool b => b
  | JSValue.null => false
  | JSValue.undef => false

/-- JavaScript string coercion of a `JSValue`, as performed by a template literal or a
computed property key. -/
def jsToString : JSValue → String
  | JSValue.num n => toString n
  | JSValue.str s => s
  | JSValue.bool b => if b then "true" else "false"
  | JSValue.null => "null"
  | JSValue.undef => "undefined"

/-- The one kind of exception the modelled code can raise: a TypeError from a property
access on undefined/null. -/
inductive JsErr where
  | typeError : JsErr
deriving DecidableEq

/-- An error-like input object, described by what the source observes of it:
the results of the property accesses `error.name`, `error.message` and
`error.constructor.name` (`constructorName = none` models `error.constructor` itself
being undefined — e.g. for a null-prototype object — so that the `.name` access throws),
the engine-level stack entries its `stack` parses to, and its own enumerable properties
in `Object.keys` order. -/
structure ErrorObj where
  name : Option JSValue := none
  message : Option JSValue := none
  constructorName : Option JSValue := none
  parsedStack : List RawStackFrame := []
  ownKeys : List (String × JSValue) := []

/-- `const name = error.name || error.constructor.name;` — throws a TypeError when
`error.name` is falsy and `error.constructor` is undefined. -/
def resolveName (e : ErrorObj) : Except JsErr JSValue :=
  let nameVal := e.name.getD JSValue.undef
  if jsTruthy nameVal then Except.ok nameVal
  else
    match e.constructorName with
    | some v => Except.ok v
    | none => Except.error JsErr.typeError

/-- Modelled from the spec: `stacktrace.parse` is the stack-trace npm library, not part
of this repository. Per §4.1 the engine facility behind the Raw Stack Extractor converts
an error-like object into "an ordered sequence of RawStackEntry (innermost-first), or an
empty sequence if the underlying engine facility reports no stack (never raises)"; the
sequence an error carries is the `parsedStack` field of the modelled error object. -/
def stacktraceParse (e : ErrorObj) : List RawStackFrame :=
  e.parsedStack

/-- parsers.ts `extractStackFromError(error)`. The guard `if (!stack) return []` never
fires, because the parse result is an array and every array is truthy. -/
def extractStackFromError (e : ErrorObj) : List RawStackFrame :=
  stacktraceParse e

/-- The `SentryException` assembled by `getExceptionFromError` (from @sentry/types):
`type`, `value`, and `stacktrace.frames`. -/
structure SentryException where
  type : JSValue
  value : Option JSValue
  frames : List StackFrame
deriving DecidableEq

/-- parsers.ts `getExceptionFromError(error)`. -/
def getExceptionFromError (mainModule : String) (fs : String → Option String)
    (e : ErrorObj) : Except JsErr SentryException := do
  let name ← resolveName e
  let stack := extractStackFromError e
  let frames := parseStack mainModule fs stack
  pure { type := name, value := e.message, frames := prepareFramesForEvent (some frames) }

/-- The property names of the array literal `['name', 'message', 'stack', 'domain']` as
seen by the JavaScript `in` operator: its own keys (the indices `"0"`..`"3"` and
`"length"`) together with the keys it inherits from `Array.prototype` and
`Object.prototype`. The reserved names `name`, `message`, `stack`, `domain` are NOT among
them, because `in` tests property names, not element membership. -/
def inArrayLiteralKeys : List String :=
  ["0", "1", "2", "3", "length",
   "concat", "copyWithin", "entries", "every", "fill", "filter", "find", "findIndex",
   "flat", "flatMap", "forEach", "includes", "indexOf", "join", "keys", "lastIndexOf",
   "map", "pop", "push", "reduce", "reduceRight", "reverse", "shift", "slice", "some",
   "sort", "splice", "toLocaleString", "toString", "unshift", "values",
   "constructor", "hasOwnProperty", "isPrototypeOf", "propertyIsEnumerable", "valueOf",
   "__defineGetter__", "__defineSetter__", "__lookupGetter__", "__lookupSetter__",
   "__proto__"]

/-- JavaScript `key in ['name', 'message', 'stack', 'domain']`, the test used by the
`errorKeys` filter in parsers.ts `parseError`. -/
def keyInReservedArrayLiteral (key : String) : Bool :=
  inArrayLiteralKeys.contains key

/-- `error[key]` for a key drawn from `Object.keys(error)`. -/
def assocGet (props : List (String × JSValue)) (k : String) : JSValue :=
  ((props.find? (fun p => p.1 == k)).map (fun p => p.2)).getD JSValue.undef

/-- The `SentryEvent` assembled by `parseError`: the exception values list, the summary
message, and the optional extra mapping `{ [name]: extraErrorInfo }` (modelled as the
stringified name key paired with the key/value list, in insertion order). -/
structure SentryEvent where
  exception : List SentryException
  message : String
  extra : Option (String × List (String × JSValue))
deriving DecidableEq

/-- parsers.ts `parseError(error)`, with the ambient `mainModule` base and filesystem
explicit. A null/undefined argument (`none`) throws at the very first property access
`error.name`. No part of the body is wrapped in a try/catch. -/
def parseError (mainModule : String) (fs : String → Option String)
    (error : Option ErrorObj) : Except JsErr SentryEvent :=
  match error with
  | none => Except.error JsErr.typeError
  | some e => do
    let name ← resolveName e
    let exception ← getExceptionFromError mainModule fs e
    -- message: `${name}: ${error.message || '<no message>'}`
    let msgPart :=
      match e.message with
      | some v => if jsTruthy v then jsToString v else "<no message>"
      | none => "<no message>"
    -- const errorKeys = Object.keys(error).filter(key => !(key in ['name', 'message', 'stack', 'domain']));
    let errorKeys := (e.ownKeys.map (fun p => p.1)).filter
      (fun key => !(keyInReservedArrayLiteral key))
    let extra :=
      if errorKeys.isEmpty then none
      else some (jsToString name, errorKeys.map (fun key => (key, assocGet e.ownKeys key)))
    pure { exception := [exception]
           message := jsToString name ++ ": " ++ msgPart
           extra := extra }



/-! Concrete inputs used by the per-claim theorems and witnesses. -/

/-- An error object with an own-enumerable `name` property and a custom property:
`err = new Error(); err.name = 'MyError'; err.customCode = 42` (no stack). -/
def c1err : ErrorObj :=
  { name := some (JSValue.str "MyError")
    constructorName := some (JSValue.str "Error")
    ownKeys := [("name", JSValue.str "MyError"), ("customCode", JSValue.num 42)] }

/-- A non-native raw stack entry whose filename is absent. -/
def c2frame : RawStackFrame := { fileName := none, isNative := false }

/-- A native raw stack entry whose filename is absent (for the witness). -/
def c2wframe : RawStackFrame := { fileName := none, isNative := true }

/-- An error-like object with a falsy `name` and an undefined `constructor`, as produced
by `Object.create(null)`. -/
def c3err : ErrorObj := {}

/-- A well-formed error object (for the witness of the amended claim). -/
def c3okerr : ErrorObj :=
  { name := some (JSValue.str "TypeError")
    message := some (JSValue.str "boom")
    constructorName := some (JSValue.str "TypeError") }

/-- A raw stack entry with no function name, a resolvable type name `Foo`, and no method
name. -/
def c4frame : RawStackFrame := { functionName := none, typeName := Except.ok (some "Foo"), methodName := none }

/-- A raw stack entry with a reported function name (for the witness). -/
def c4wframe : RawStackFrame := { functionName := some "doWork" }

/-- A frame whose source file is readable but whose fault line number is 0. -/
def c5frame : StackFrame := { filename := "/a.js", lineno := some 0 }

/-- The filesystem for the C5 failing input: a readable three-line file. -/
def c5fs : String → Option String :=
  fun f => if f = "/a.js" then some "one\ntwo\nthree" else none

/-- A non-native raw entry inside a dependency directory (not in-app, but not internal
either, so its file is read). -/
def c6raw : RawStackFrame :=
  { fileName := some "/app/node_modules/pkg/x.js", lineNumber := some 2 }

/-- The filesystem for the C6 inputs: the dependency file is readable. -/
def c6fs : String → Option String :=
  fun f => if f = "/app/node_modules/pkg/x.js" then some "a\nb\nc" else none

/-- The frame the pipeline produces for `c6raw` under `c6fs`: not in-app, yet fully
enriched with context. -/
def c6out : StackFrame :=
  { colno := none
    filename := "/app/node_modules/pkg/x.js"
    function := "null.<anonymous>"
    lineno := some 2
    in_app := false
    module := some "pkg:x"
    pre_context := some ["a"]
    context_line := some "b"
    post_context := some ["c"] }

/-- A 20-line source file, lines `L01` .. `L20`. -/
def c8content : String :=
  "L01\nL02\nL03\nL04\nL05\nL06\nL07\nL08\nL09\nL10\nL11\nL12\nL13\nL14\nL15\nL16\nL17\nL18\nL19\nL20"

/-- A frame whose fault line is 10, with a reported column. -/
def c8frame : StackFrame := { filename := "/app/x.js", lineno := some 10, colno := some 4 }

/-- Two frames for the C9/C10 witnesses: an application frame on top of a capture-entry
frame. Innermost first, no capture marker on the innermost frame. -/
def c9fA : StackFrame := { function := "doWork", filename := "/app/a.js" }

/-- The outer frame of the C9/C10 witness stacks. -/
def c9fB : StackFrame := { function := "main", filename := "/app/b.js" }

/-- A frame whose function name contains the SDK capture marker. -/
def c10fC : StackFrame := { function := "Object.captureException", filename := "/sdk/c.js" }

/-! Helper lemmas shared by the claim proofs. -/

/-- A frame fresh from the normalizer has no context fields. -/
theorem normalizeFrame_context_none (mainModule : String) (fr : RawStackFrame) :
    (normalizeFrame mainModule fr).1.pre_context = none ∧
    (normalizeFrame mainModule fr).1.context_line = none ∧
    (normalizeFrame mainModule fr).1.post_context = none :=
  ⟨rfl, rfl, rfl⟩

/-- `enrichFrame` either returns the frame unchanged, or it keeps `filename` and `in_app`
and the frame's filename was truthy with truthy source content. -/
theorem enrichFrame_cases (sf : String → Option String) (fr0 : StackFrame) :
    enrichFrame sf fr0 = fr0 ∨
    ((enrichFrame sf fr0).filename = fr0.filename ∧
     (enrichFrame sf fr0).in_app = fr0.in_app ∧
     fr0.filename ≠ "" ∧ sf fr0.filename ≠ none ∧ sf fr0.filename ≠ some "") := by
  unfold enrichFrame
  split
  · exact Or.inl rfl
  case h_2 content heq =>
    by_cases hc : content = ""
    · subst hc
      simp
    · right
      have hf : fr0.filename ≠ "" := by
        intro hfe
        rw [if_neg (by simp [hfe])] at heq
        exact Option.noConfusion heq
      rw [if_pos hf] at heq
      refine ⟨by simp [hc], by simp [hc], hf, by simp [heq], ?_⟩
      rw [heq]
      simp [hc]

/-! Per-claim theorems. -/

/-- Claim C1 (evaluation at the failing input): an error object with own-enumerable
properties `{ name: 'MyError', customCode: 42 }` produces an event whose `extra` mapping
DOES contain the reserved key `name`, because the filter `!(key in ['name', 'message',
'stack', 'domain'])` tests the array's property names rather than its elements, so no
reserved name is ever filtered out. -/
theorem C1_reserved_name_lands_in_extra :
    parseError "/app/" (fun _ => none) (some c1err) =
      Except.ok
        { exception := [{ type := JSValue.str "MyError", value := none, frames := [] }]
          message := "MyError: <no message>"
          extra := some ("MyError",
            [("name", JSValue.str "MyError"), ("customCode", JSValue.num 42)]) } :=
  rfl

/-- Claim C2 (counterexample): a raw stack entry with an absent filename that is not
native is normalized with `in_app = true`, because the filename is defaulted to the empty
string: the empty string short-circuits the internal heuristic, passes the (vacuous)
`!== undefined` check, and contains no dependency-directory segment. -/
theorem C2_counterexample :
    c2frame.fileName = none ∧ c2frame.isNative = false ∧
    (normalizeFrame "/app/" c2frame).1.in_app = true :=
  ⟨rfl, rfl, by decide⟩

/-- Claim C2 (amended): a raw stack entry with an absent filename is normalized with
`filename = ""`, and its `in_app` flag is false exactly when the entry is native. -/
theorem C2_absent_filename_in_app (mainModule : String) (fr : RawStackFrame)
    (h : fr.fileName = none) :
    (normalizeFrame mainModule fr).1.filename = "" ∧
    (normalizeFrame mainModule fr).1.in_app = !fr.isNative := by
  have hc : strContains "" "node_modules/" = false := by decide
  simp [normalizeFrame, jsOrStr, h, hc]

/-- Witness for C2_absent_filename_in_app at a concrete native entry. -/
theorem C2_absent_filename_in_app_witness :
    c2wframe.fileName = none ∧
    ((normalizeFrame "/app/" c2wframe).1.filename = "" ∧
     (normalizeFrame "/app/" c2wframe).1.in_app = !c2wframe.isNative) :=
  ⟨rfl, C2_absent_filename_in_app "/app/" c2wframe rfl⟩

/-- Claim C3 (counterexample): for an input whose `name` is falsy and whose `constructor`
is undefined — the shape of `Object.create(null)` — `parseError` does not return an
EventRecord: the TypeError raised by `error.constructor.name` escapes it, as nothing in
`parseError` is wrapped in a try/catch. -/
theorem C3_counterexample :
    parseError "/app/" (fun _ => none) (some c3err) = Except.error JsErr.typeError :=
  rfl

/-- Claim C3 (amended): `parseError` completes and returns an EventRecord for every
error-like input whose type-name resolution succeeds, i.e. whose `name` property access
yields a truthy value or whose `constructor` is accessible. -/
theorem C3_total_when_name_resolves (mainModule : String) (fs : String → Option String)
    (e : ErrorObj)
    (h : jsTruthy (e.name.getD JSValue.undef) = true ∨ e.constructorName ≠ none) :
    (parseError mainModule fs (some e)).toOption.isSome = true := by
  have hres : ∃ n, resolveName e = Except.ok n := by
    unfold resolveName
    rcases h with h | h
    · refine ⟨e.name.getD JSValue.undef, ?_⟩
      simp [h]
    · cases hc : e.constructorName with
      | none => exact absurd hc h
      | some v =>
        by_cases ht : jsTruthy (e.name.getD JSValue.undef) <;> simp [ht, hc]
  obtain ⟨n, hn⟩ := hres
  simp [parseError, getExceptionFromError, hn, Except.toOption, Except.bind, bind, pure,
    Except.pure]

/-- Witness for C3_total_when_name_resolves at a concrete well-formed error. -/
theorem C3_total_when_name_resolves_witness :
    (jsTruthy (c3okerr.name.getD JSValue.undef) = true ∨ c3okerr.constructorName ≠ none) ∧
    (parseError "/app/" (fun _ => none) (some c3okerr)).toOption.isSome = true :=
  ⟨Or.inl (by decide),
   C3_total_when_name_resolves "/app/" (fun _ => none) c3okerr (Or.inl (by decide))⟩

/-- Claim C4 (counterexample): for a raw entry with no function name, a resolvable type
name `Foo` and no method name, the normalized function is `Foo.<anonymous>` — not the
bare sentinel `<anonymous>` the claim requires when the method name is unresolvable. -/
theorem C4_counterexample :
    c4frame.functionName = none ∧ c4frame.methodName = none ∧
    getFunction c4frame = "Foo.<anonymous>" ∧ getFunction c4frame ≠ "<anonymous>" :=
  ⟨rfl, rfl, by decide, by decide⟩

/-- Claim C4 (amended): the normalized function is the reported function name when that
name is truthy; otherwise, when type-name resolution throws, it is exactly the sentinel
`<anonymous>`; and otherwise it is the template `<typeName>.<methodName>` in which an
absent type name renders as `null` and an absent (or empty) method name renders as
`<anonymous>`. -/
theorem C4_function_name_cases (fr : RawStackFrame) :
    (∀ n, fr.functionName = some n → n ≠ "" → getFunction fr = n) ∧
    (jsOrStr fr.functionName "" = "" → fr.typeName = Except.error () →
      getFunction fr = "<anonymous>") ∧
    (∀ t, jsOrStr fr.functionName "" = "" → fr.typeName = Except.ok t →
      getFunction fr = templateOfOption t ++ "." ++ jsOrStr fr.methodName "<anonymous>") := by
  refine ⟨?_, ?_, ?_⟩
  · intro n hn hne
    simp [getFunction, hn, hne]
  · intro hf ht
    cases hfn : fr.functionName with
    | none => simp [getFunction, hfn, getFunctionFallback, ht]
    | some v =>
      have hv : v = "" := by
        by_cases hve : v = ""
        · exact hve
        · simp [jsOrStr, hfn, hve] at hf
      subst hv
      simp [getFunction, hfn, getFunctionFallback, ht]
  · intro t hf ht
    cases hfn : fr.functionName with
    | none => simp [getFunction, hfn, getFunctionFallback, ht]
    | some v =>
      have hv : v = "" := by
        by_cases hve : v = ""
        · exact hve
        · simp [jsOrStr, hfn, hve] at hf
      subst hv
      simp [getFunction, hfn, getFunctionFallback, ht]

/-- Witness for C4_function_name_cases at a concrete entry with a reported name. -/
theorem C4_function_name_cases_witness :
    c4wframe.functionName = some "doWork" ∧ "doWork" ≠ "" ∧
    getFunction c4wframe = "doWork" :=
  ⟨rfl, by decide, (C4_function_name_cases c4wframe).1 "doWork" rfl (by decide)⟩

/-- Claim C5 (evaluation at the failing input): for a successfully read three-line file
and a frame whose fault line is 0, the enricher does NOT produce an empty `pre_context`:
`lines.slice(Math.max(0, -8), -1)` is `lines.slice(0, -1)`, and the negative end index
wraps to `length - 1`, yielding every line but the last. The fault line itself
(`lines[-1]`) is absent, so `context_line` stays unset. -/
theorem C5_pre_context_not_empty :
    addPrePostContext ["/a.js"] [c5frame] c5fs =
      [{ c5frame with
          pre_context := some ["one", "two"]
          context_line := none
          post_context := some ["one", "two", "three"] }] := by
  decide

/-- Claim C7 (counterexample): with base `/app/` the filename `/app/lib/foo.js` yields
the module name `lib:foo` — the relative directory is joined to the file stem with a
colon, not with a dot, so the claimed `lib.foo` is wrong. -/
theorem C7_counterexample :
    getModule "/app/lib/foo.js" "/app/" = "lib:foo" ∧
    getModule "/app/lib/foo.js" "/app/" ≠ "lib.foo" :=
  ⟨by decide, by decide⟩

/-- Claim C7 (amended): for base `/app/` and filename `/app/lib/foo.js` the module name
is `lib:foo`; for `/app/node_modules/pkg/sub/bar.js` it is `pkg.sub:bar`; and for
`/app/index.js` with base `/app/` it is `index`. -/
theorem C7_module_names :
    getModule "/app/lib/foo.js" "/app/" = "lib:foo" ∧
    getModule "/app/node_modules/pkg/sub/bar.js" "/app/" = "pkg.sub:bar" ∧
    getModule "/app/index.js" "/app/" = "index" :=
  ⟨by decide, by decide, by decide⟩

/-- Claim C6 (counterexample): a readable frame inside `node_modules/` is not in-app,
yet its source file is read (it is not "internal") and all three context fields are
populated — contradicting "context fields are populated only for in-app frames". -/
theorem C6_counterexample :
    (parseStack "/app/" c6fs [c6raw]).map
        (fun fr => (fr.in_app, fr.pre_context, fr.context_line, fr.post_context)) =
      [(false, some ["a"], some "b", some ["c"])] := by
  decide

/-- Claim C6 (amended): a frame of the pipeline output carries a populated context field
only if its filename is truthy, that filename was collected for reading (it belongs to
some non-internal frame — a set that includes `node_modules` frames, which are not
in-app), and the file's content was read as a non-empty string. -/
theorem C6_context_requires_read (mainModule : String) (fs : String → Option String)
    (stack : List RawStackFrame) (fr : StackFrame)
    (hmem : fr ∈ parseStack mainModule fs stack)
    (hctx : fr.pre_context ≠ none ∨ fr.context_line ≠ none ∨ fr.post_context ≠ none) :
    fr.filename ≠ "" ∧ fr.filename ∈ filesToReadOf mainModule stack ∧
      fs fr.filename ≠ none ∧ fs fr.filename ≠ some "" := by
  have key : ∀ fr0 : StackFrame,
      fr0.pre_context = none → fr0.context_line = none → fr0.post_context = none →
      enrichFrame (fun f => if f ∈ filesToReadOf mainModule stack then fs f else none) fr0
          = fr →
      fr.filename ≠ "" ∧ fr.filename ∈ filesToReadOf mainModule stack ∧
        fs fr.filename ≠ none ∧ fs fr.filename ≠ some "" := by
    intro fr0 h1 h2 h3 he
    rcases enrichFrame_cases
        (fun f => if f ∈ filesToReadOf mainModule stack then fs f else none) fr0 with
      hsame | ⟨hfn, _, hf, hnone, hemp⟩
    · have hff : fr = fr0 := by rw [← he, hsame]
      subst hff
      rcases hctx with h | h | h
      · exact absurd h1 h
      · exact absurd h2 h
      · exact absurd h3 h
    · have hff : fr.filename = fr0.filename := by rw [← he]; exact hfn
      by_cases hm : fr0.filename ∈ filesToReadOf mainModule stack
      · have hfs : fs fr0.filename ≠ none := by simpa [hm] using hnone
        have hfs2 : fs fr0.filename ≠ some "" := by simpa [hm] using hemp
        rw [hff]
        exact ⟨hf, hm, hfs, hfs2⟩
      · exact absurd (by simp [hm]) hnone
  unfold parseStack addPrePostContext at hmem
  simp only [List.mem_map] at hmem
  obtain ⟨fr0, hex, henrich⟩ := hmem
  obtain ⟨raw, hraw, hnorm⟩ := hex
  subst hnorm
  exact key _ (normalizeFrame_context_none mainModule raw).1
    (normalizeFrame_context_none mainModule raw).2.1
    (normalizeFrame_context_none mainModule raw).2.2 henrich

/-- Claim C9: the event assembler yields the empty sequence for an absent or empty stack;
for a non-empty stack it drops exactly one entry — the first entry of the innermost-first
sequence — precisely when that entry's function name contains a capture-entry-point
marker (`captureMessage` or `captureException`), and reverses what remains, so that
without a drop the first (fault) frame ends up last. -/
theorem C9_prepare_frames_order (stack : Option (List StackFrame)) :
    (stack = none → prepareFramesForEvent stack = []) ∧
    (stack = some [] → prepareFramesForEvent stack = []) ∧
    (∀ first rest, stack = some (first :: rest) →
      (hasCaptureMarker first.function = true →
        prepareFramesForEvent stack = rest.reverse) ∧
      (hasCaptureMarker first.function = false →
        prepareFramesForEvent stack = (first :: rest).reverse ∧
        (prepareFramesForEvent stack).getLast? = some first)) := by
  refine ⟨?_, ?_, ?_⟩
  · rintro rfl; rfl
  · rintro rfl; rfl
  · rintro first rest rfl
    constructor
    · intro hm
      simp [prepareFramesForEvent, hm]
    · intro hm
      refine ⟨by simp [prepareFramesForEvent, hm], ?_⟩
      simp [prepareFramesForEvent, hm]

/-- Witness for C9_prepare_frames_order on a concrete two-frame stack with no capture
marker on the first frame. -/
theorem C9_prepare_frames_order_witness :
    hasCaptureMarker c9fA.function = false ∧
    prepareFramesForEvent (some [c9fA, c9fB]) = [c9fA, c9fB].reverse ∧
    (prepareFramesForEvent (some [c9fA, c9fB])).getLast? = some c9fA :=
  ⟨by decide, ((C9_prepare_frames_order (some [c9fA, c9fB])).2.2 c9fA [c9fB] rfl).2 (by decide)⟩

/-- Claim C10: `prepareFramesForEvent` mutates its argument. For a non-empty stack whose
first frame carries no capture marker, the returned array is the caller's own array
object (aliasing flag true), reversed in place, so the caller's array contents are
reordered as a side effect; when the first frame is dropped, only a fresh copy produced
by `slice(1)` is reversed, and the caller's array is left unchanged (aliasing flag
false). -/
theorem C10_prepare_frames_aliasing (first : StackFrame) (rest : List StackFrame) :
    (hasCaptureMarker first.function = false →
      (prepareFramesForEventSt (first :: rest)).2.2 = true ∧
      (prepareFramesForEventSt (first :: rest)).1 = (first :: rest).reverse ∧
      (prepareFramesForEventSt (first :: rest)).2.1 = (first :: rest).reverse) ∧
    (hasCaptureMarker first.function = true →
      (prepareFramesForEventSt (first :: rest)).2.2 = false ∧
      (prepareFramesForEventSt (first :: rest)).1 = rest.reverse ∧
      (prepareFramesForEventSt (first :: rest)).2.1 = first :: rest) := by
  constructor
  · intro hm
    simp [prepareFramesForEventSt, hm]
  · intro hm
    simp [prepareFramesForEventSt, hm]

/-- Witness for C10_prepare_frames_aliasing: the no-marker branch on a concrete stack. -/
theorem C10_prepare_frames_aliasing_witness :
    hasCaptureMarker c9fA.function = false ∧
    ((prepareFramesForEventSt [c9fA, c10fC]).2.2 = true ∧
     (prepareFramesForEventSt [c9fA, c10fC]).1 = [c9fA, c10fC].reverse ∧
     (prepareFramesForEventSt [c9fA, c10fC]).2.1 = [c9fA, c10fC].reverse) :=
  ⟨by decide, (C10_prepare_frames_aliasing c9fA [c10fC]).1 (by decide)⟩

/-- Witness for C6_context_requires_read at the concrete dependency-directory input. -/
theorem C6_context_requires_read_witness :
    c6out ∈ parseStack "/app/" c6fs [c6raw] ∧ c6out.pre_context ≠ none ∧
    (c6out.filename ≠ "" ∧ c6out.filename ∈ filesToReadOf "/app/" [c6raw] ∧
      c6fs c6out.filename ≠ none ∧ c6fs c6out.filename ≠ some "") :=
  ⟨by decide, by decide,
   C6_context_requires_read "/app/" c6fs [c6raw] c6out (by decide) (Or.inl (by decide))⟩

/-! Further helper lemmas, for the context-window computation of C8. -/

/-- The populated branch of `enrichFrame`, as an equation. -/
theorem enrichFrame_eq_of (sf : String → Option String) (fr : StackFrame) (content : String)
    (hfn : fr.filename ≠ "") (hs : sf fr.filename = some content) (hc : content ≠ "") :
    enrichFrame sf fr =
      { fr with
        pre_context := some ((jsSlice (splitLines content)
            (max 0 (((fr.lineno.getD 0 : Nat) : Int) - ((LINES_OF_CONTEXT : Int) + 1)))
            (((fr.lineno.getD 0 : Nat) : Int) - 1)).map (fun line => snipLineStr line 0))
        context_line := snipLineOpt
          (jsIndex (splitLines content) (((fr.lineno.getD 0 : Nat) : Int) - 1))
          (fr.colno.getD 0)
        post_context := some ((jsSlice (splitLines content) ((fr.lineno.getD 0 : Nat) : Int)
            (((fr.lineno.getD 0 : Nat) : Int) + (LINES_OF_CONTEXT : Int))).map
            (fun line => snipLineStr line 0)) } := by
  unfold enrichFrame
  rw [if_pos hfn, hs]
  dsimp only
  rw [if_neg hc]

/-- `slice(2, 9)` of a 20-element list is elements 2..8. -/
theorem jsSlice_of_len20_29 (L : List String) (h : L.length = 20) :
    jsSlice L 2 9 = (L.drop 2).take 7 := by
  unfold jsSlice
  norm_num [h, List.drop_take]
  rfl

/-- `slice(10, 17)` of a 20-element list is elements 10..16. -/
theorem jsSlice_of_len20_post (L : List String) (h : L.length = 20) :
    jsSlice L 10 17 = (L.drop 10).take 7 := by
  unfold jsSlice
  norm_num [h, List.drop_take]
  rfl

/-- Indexing at the non-negative position 9 is plain list indexing. -/
theorem jsIndex_nine (L : List String) : jsIndex L 9 = L[9]? := by
  unfold jsIndex
  norm_num
  rfl

/-- A 20-element list has a ninth element. -/
theorem isSome_nine (L : List String) (h : L.length = 20) : (L[9]?).isSome = true := by
  rw [List.getElem?_eq_getElem (by omega)]
  rfl

/-- Claim C8: for a 20-line source file and a frame whose fault line is 10 (with
`LINES_OF_CONTEXT = 7`), the enricher attaches exactly the 7 lines 3-9 as `pre_context`,
line 10 (snipped at the frame's reported column) as `context_line`, and exactly the 7
lines 11-17 as `post_context`, every context line snipped at column 0. -/
theorem C8_context_window (content : String) (fr : StackFrame)
    (hfn : fr.filename ≠ "") (hl : fr.lineno = some 10)
    (h20 : (splitLines content).length = 20) :
    addPrePostContext [fr.filename] [fr]
        (fun f => if f = fr.filename then some content else none) =
      [{ fr with
          pre_context := some ((((splitLines content).drop 2).take 7).map
            (fun line => snipLineStr line 0))
          context_line := snipLineOpt ((splitLines content)[9]?) (fr.colno.getD 0)
          post_context := some ((((splitLines content).drop 10).take 7).map
            (fun line => snipLineStr line 0)) }] ∧
    (((splitLines content).drop 2).take 7).length = 7 ∧
    ((splitLines content)[9]?).isSome = true ∧
    (((splitLines content).drop 10).take 7).length = 7 := by
  have hcne : content ≠ "" := by
    intro h
    rw [h] at h20
    exact absurd h20 (by decide)
  refine ⟨?_, ?_, isSome_nine _ h20, ?_⟩
  · unfold addPrePostContext
    simp only [List.map_cons, List.map_nil]
    rw [enrichFrame_eq_of _ fr content hfn (by simp) hcne]
    rw [hl]
    norm_num [LINES_OF_CONTEXT]
    rw [jsSlice_of_len20_29 _ h20, jsSlice_of_len20_post _ h20, jsIndex_nine]
    simp [List.map_take, List.map_drop]
  · simp [List.length_take, List.length_drop, h20]
  · simp [List.length_take, List.length_drop, h20]

/-- Witness for C8_context_window at the concrete 20-line file `L01`..`L20`. -/
theorem C8_context_window_witness :
    c8frame.filename ≠ "" ∧ c8frame.lineno = some 10 ∧ (splitLines c8content).length = 20 ∧
    (addPrePostContext [c8frame.filename] [c8frame]
        (fun f => if f = c8frame.filename then some c8content else none) =
      [{ c8frame with
          pre_context := some ((((splitLines c8content).drop 2).take 7).map
            (fun line => snipLineStr line 0))
          context_line := snipLineOpt ((splitLines c8content)[9]?) (c8frame.colno.getD 0)
          post_context := some ((((splitLines c8content).drop 10).take 7).map
            (fun line => snipLineStr line 0)) }] ∧
      (((splitLines c8content).drop 2).take 7).length = 7 ∧
      ((splitLines c8content)[9]?).isSome = true ∧
      (((splitLines c8content).drop 10).take 7).length = 7) :=
  ⟨by decide, rfl, by decide,
   C8_context_window c8content c8frame (by decide) rfl (by decide)⟩
